import Mathlib

/-!
Verification of the document-ingestion and report-generation pipeline of the
`agency` repository against its natural-language specification.

The embedding below translates the TypeScript source into Lean:

* `src/store/chat-store.ts` — the file-parsing API route: `parseCSVLine`,
  `parseCSV`, `parseExcel`, and the parser-selection `if`-chain of its `POST`
  handler.
* `src/app/api/generate-report/route.ts` — the report route:
  `formatPreParsedContent`, `extractChartsFromContent`, `generateColors`,
  and the `includeGraphs` branch of `POST`.

JavaScript strings are modelled as `String` / `List Char`; the handful of
library builtins the code calls (`String.prototype.split/trim/replace`,
`parseFloat`, `JSON.parse`, template-literal stringification, and the two
`XLSX` sheet conversions) are modelled explicitly next to their first use.
All functions are computable so that every theorem can be instantiated on
concrete inputs.
-/

/-- JavaScript whitespace for `String.prototype.trim` (ASCII subset: space,
tab, line feed, carriage return, vertical tab, form feed). -/
def isJsWs (c : Char) : Bool :=
  c = ' ' || c = '\t' || c = '\n' || c = '\r' || c = '\x0b' || c = '\x0c'

/-- `String.prototype.trim` on a character list: drop JS whitespace from both
ends. -/
def jsTrim (l : List Char) : List Char :=
  ((l.dropWhile isJsWs).reverse.dropWhile isJsWs).reverse

/-- `String.prototype.trim`. -/
def jsTrimS (s : String) : String := ⟨jsTrim s.data⟩

/-- `content.split('\n')`: split a character list at every newline, keeping
empty segments, exactly like the JavaScript `split` with a single-character
separator. -/
def splitNl : List Char → List (List Char)
  | [] => [[]]
  | c :: rest =>
    if c = '\n' then [] :: splitNl rest
    else
      match splitNl rest with
      | l :: ls => (c :: l) :: ls
      | [] => [[c]]

/-- The non-blank lines of a CSV text:
`content.split('\n').filter(line => line.trim())` from `parseCSV`
(src/store/chat-store.ts). -/
def nonblankLines (content : String) : List (List Char) :=
  (splitNl content.data).filter (fun l => !(jsTrim l).isEmpty)

/-- One step of the character scan of `parseCSVLine`
(src/store/chat-store.ts): a double quote toggles the `inQuotes` mode and is
dropped, a comma outside quotes ends the current cell (which is pushed
trimmed), and every other character is appended to the current cell.  The
final cell is pushed trimmed when the line is exhausted. -/
def parseCSVLineAux : List Char → Bool → List Char → List (List Char)
  | [], _, cur => [jsTrim cur]
  | ch :: rest, inQ, cur =>
    if ch = '"' then parseCSVLineAux rest (!inQ) cur
    else if ch = ',' && !inQ then jsTrim cur :: parseCSVLineAux rest inQ []
    else parseCSVLineAux rest inQ (cur ++ [ch])

/-- `parseCSVLine` from `parseCSV` (src/store/chat-store.ts): parse a single
CSV line respecting double-quoted fields. -/
def parseCSVLine (line : List Char) : List String :=
  (parseCSVLineAux line false []).map (fun l => ⟨l⟩)

/-- Model of the JavaScript test `val && !isNaN(parseFloat(val))` applied to a
cell string: the cell is non-empty (JS truthiness of a string) and
`parseFloat` finds a decimal-literal prefix (optional sign, then a digit, a
dot followed by a digit, or `Infinity`), hence does not return `NaN`. -/
def isNumericCell (s : String) : Bool :=
  s ≠ "" &&
    (let cs := s.data.dropWhile isJsWs
     let cs2 := match cs with
       | c :: r => if c = '+' || c = '-' then r else c :: r
       | [] => []
     match cs2 with
     | [] => false
     | c :: r =>
       c.isDigit || (c = '.' && (match r with | d :: _ => d.isDigit | [] => false))
         || "Infinity".data.isPrefixOf (c :: r))

/-- `row[index]` followed by the numeric test: an out-of-range index yields
`undefined`, which is falsy. -/
def rowCellNumeric (row : List String) (i : Nat) : Bool :=
  match row.get? i with
  | some v => isNumericCell v
  | none => false

/-- `rows.slice(0, 10).every(row => ...)`: the sampled numeric test for the
column at index `i` (src/store/chat-store.ts, `parseCSV`). -/
def sampleNumeric (rows : List (List String)) (i : Nat) : Bool :=
  (rows.take 10).all (fun row => rowCellNumeric row i)

/-- `headers.filter((_, index) => p index)`: filter a list by the index of
each element, as the JavaScript two-argument `filter` callback does. -/
def filterIdx (p : Nat → Bool) : Nat → List α → List α
  | _, [] => []
  | i, x :: xs => if p i then x :: filterIdx p (i + 1) xs else filterIdx p (i + 1) xs

/-- `insights` of a CSV/Excel table. The CSV parser fills every field; see
`parseCSV`. -/
structure Insights where
  rowCount : Nat
  columnCount : Nat
  numericColumns : List String
  categoricalColumns : List String
  preview : List (List String)
  deriving DecidableEq, Repr

/-- A parsed table as built by `parseCSV` (src/store/chat-store.ts). -/
structure Table where
  name : String
  headers : List String
  rows : List (List String)
  insights : Insights
  deriving DecidableEq, Repr

/-- A default table, used only to destructure concrete parser outputs in
witnesses. -/
def emptyTable : Table :=
  { name := "", headers := [], rows := [],
    insights := { rowCount := 0, columnCount := 0, numericColumns := [],
                  categoricalColumns := [], preview := [] } }

/-- First occurrence of `pat` in a character list: returns the part before
the match and the part after it (`s = before ++ pat ++ after`), or `none`
when `pat` does not occur.  This models JavaScript's `indexOf`-based search
used by `String.prototype.replace` with a string pattern and by
`String.prototype.includes`. -/
def findSub (pat : List Char) : List Char → Option (List Char × List Char)
  | [] => if pat.isEmpty then some ([], []) else none
  | c :: rest =>
    if pat.isPrefixOf (c :: rest) then some ([], (c :: rest).drop pat.length)
    else
      match findSub pat rest with
      | some (b, a) => some (c :: b, a)
      | none => none

/-- `fileName.replace('.csv', '')` — replace the first occurrence of a plain
string, with a replacement containing no `$` patterns. -/
def replacePlain (s pat rep : List Char) : List Char :=
  match findSub pat s with
  | none => s
  | some (b, a) => b ++ rep ++ a

/-- `parseCSV` from src/store/chat-store.ts: split into non-blank lines,
parse the first as headers and the rest as rows, classify numeric columns by
sampling the first 10 rows, and build one `Table` (rows capped at 1000,
`rowCount` untruncated, `preview` the first 5 rows).  Fewer than two
non-blank lines yield no table. -/
def parseCSV (content fileName : String) : List Table :=
  let lines := nonblankLines content
  if lines.length < 2 then []
  else
    let headers := parseCSVLine (lines.headD [])
    let rows := (lines.drop 1).map parseCSVLine
    let numericColumns := filterIdx (fun i => sampleNumeric rows i) 0 headers
    let categoricalColumns := headers.filter (fun h => !(numericColumns.contains h))
    [{ name := ⟨replacePlain fileName.data ".csv".data []⟩,
       headers := headers,
       rows := rows.take 1000,
       insights :=
         { rowCount := rows.length,
           columnCount := headers.length,
           numericColumns := numericColumns,
           categoricalColumns := categoricalColumns,
           preview := rows.take 5 } }]

/-- JSON values as produced by `JSON.parse`.  Numbers keep their literal
parts (sign, integer digits, fraction digits, exponent value) since the
chart code only passes them through; objects keep their key/value pairs in
parse order (later duplicates win on access, as in JavaScript). -/
inductive Json where
  | null : Json
  | bool : Bool → Json
  | num : Bool → List Char → List Char → Int → Json
  | str : String → Json
  | arr : List Json → Json
  | obj : List (String × Json) → Json

/-- JSON inter-token whitespace (space, tab, line feed, carriage return). -/
def jsonWs (c : Char) : Bool := c = ' ' || c = '\t' || c = '\n' || c = '\r'

/-- Split a character list into its leading run of decimal digits and the
rest. -/
def digitsOf : List Char → List Char × List Char
  | [] => ([], [])
  | c :: r =>
    if c.isDigit then
      let p := digitsOf r
      (c :: p.1, p.2)
    else ([], c :: r)

/-- Hexadecimal digit value. -/
def hexVal (c : Char) : Option Nat :=
  if c.isDigit then some (c.toNat - 48)
  else if 'a' ≤ c && c ≤ 'f' then some (c.toNat - 87)
  else if 'A' ≤ c && c ≤ 'F' then some (c.toNat - 55)
  else none

/-- Body of a JSON string literal after the opening quote: the standard
escapes, `\uXXXX` (mapped through `Char.ofNat`, an approximation for
surrogate halves, which `Char` cannot represent), and a hard error on
unescaped control characters — as in `JSON.parse`. -/
def parseStringAux : List Char → Option (List Char × List Char)
  | [] => none
  | c :: r =>
    if c = '"' then some ([], r)
    else if c = '\\' then
      match r with
      | [] => none
      | e :: r2 =>
        if e = '"' || e = '\\' || e = '/' then
          (parseStringAux r2).map (fun p => (e :: p.1, p.2))
        else if e = 'n' then (parseStringAux r2).map (fun p => ('\n' :: p.1, p.2))
        else if e = 't' then (parseStringAux r2).map (fun p => ('\t' :: p.1, p.2))
        else if e = 'r' then (parseStringAux r2).map (fun p => ('\r' :: p.1, p.2))
        else if e = 'b' then (parseStringAux r2).map (fun p => (Char.ofNat 8 :: p.1, p.2))
        else if e = 'f' then (parseStringAux r2).map (fun p => (Char.ofNat 12 :: p.1, p.2))
        else if e = 'u' then
          match r2 with
          | a :: b :: c2 :: d :: r3 =>
            match hexVal a, hexVal b, hexVal c2, hexVal d with
            | some x, some y, some z, some w =>
              (parseStringAux r3).map
                (fun p => (Char.ofNat (4096 * x + 256 * y + 16 * z + w) :: p.1, p.2))
            | _, _, _, _ => none
          | _ => none
        else none
    else if c.toNat < 32 then none
    else (parseStringAux r).map (fun p => (c :: p.1, p.2))

/-- Digit run to a natural number. -/
def digitsToNat (ds : List Char) : Nat :=
  ds.foldl (fun acc c => 10 * acc + (c.toNat - 48)) 0

/-- Optional exponent part of a JSON number; consumes nothing unless a
well-formed exponent with at least one digit follows. -/
def parseExpPart (s : List Char) : Int × List Char :=
  match s with
  | e :: r =>
    if e = 'e' || e = 'E' then
      let sr : Int × List Char :=
        match r with
        | '+' :: rr => (1, rr)
        | '-' :: rr => (-1, rr)
        | _ => (1, r)
      match digitsOf sr.2 with
      | ([], _) => (0, s)
      | (ds, rest) => (sr.1 * Int.ofNat (digitsToNat ds), rest)
    else (0, s)
  | [] => (0, [])

/-- Fraction and exponent of a JSON number, after the integer part. -/
def parseFracExp (neg : Bool) (ipart : List Char) (s : List Char) :
    Option (Json × List Char) :=
  let fp : List Char × List Char :=
    match s with
    | '.' :: r =>
      match digitsOf r with
      | ([], _) => ([], s)
      | (ds, rest) => (ds, rest)
    | _ => ([], s)
  let ep := parseExpPart fp.2
  some (Json.num neg ipart fp.1 ep.1, ep.2)

/-- A JSON number per the `JSON.parse` grammar: optional minus, `0` or a
non-zero-led digit run, optional fraction, optional exponent. -/
def parseNum (s : List Char) : Option (Json × List Char) :=
  let p : Bool × List Char :=
    match s with
    | '-' :: r => (true, r)
    | _ => (false, s)
  match p.2 with
  | [] => none
  | c :: r =>
    if c = '0' then parseFracExp p.1 ['0'] r
    else if c.isDigit then
      let q := digitsOf r
      parseFracExp p.1 (c :: q.1) q.2
    else none

/-- Opening curly brace. -/
def lbrace : Char := Char.ofNat 123

/-- Closing curly brace. -/
def rbrace : Char := Char.ofNat 125

mutual

/-- `JSON.parse` value parser: fuel-indexed recursive descent over the
character list. -/
def parseValue : Nat → List Char → Option (Json × List Char)
  | 0, _ => none
  | fuel + 1, s =>
    match s.dropWhile jsonWs with
    | [] => none
    | c :: r =>
      if c = '"' then (parseStringAux r).map (fun p => (Json.str ⟨p.1⟩, p.2))
      else if c = lbrace then
        match r.dropWhile jsonWs with
        | d :: r2 =>
          if d = rbrace then some (Json.obj [], r2)
          else (parseObjItems fuel r).map (fun p => (Json.obj p.1, p.2))
        | [] => none
      else if c = '[' then
        match r.dropWhile jsonWs with
        | d :: r2 =>
          if d = ']' then some (Json.arr [], r2)
          else (parseArrItems fuel r).map (fun p => (Json.arr p.1, p.2))
        | [] => none
      else if c = 't' then
        if "true".data.isPrefixOf (c :: r) then some (Json.bool true, (c :: r).drop 4)
        else none
      else if c = 'f' then
        if "false".data.isPrefixOf (c :: r) then some (Json.bool false, (c :: r).drop 5)
        else none
      else if c = 'n' then
        if "null".data.isPrefixOf (c :: r) then some (Json.null, (c :: r).drop 4)
        else none
      else parseNum (c :: r)

/-- Comma-separated JSON array elements, ending at `]` (non-empty case). -/
def parseArrItems : Nat → List Char → Option (List Json × List Char)
  | 0, _ => none
  | fuel + 1, s =>
    match parseValue fuel s with
    | none => none
    | some (v, rest) =>
      match rest.dropWhile jsonWs with
      | ',' :: r2 => (parseArrItems fuel r2).map (fun p => (v :: p.1, p.2))
      | d :: r2 => if d = ']' then some ([v], r2) else none
      | [] => none

/-- Comma-separated JSON object members, ending at the closing brace
(non-empty case). -/
def parseObjItems : Nat → List Char → Option (List (String × Json) × List Char)
  | 0, _ => none
  | fuel + 1, s =>
    match s.dropWhile jsonWs with
    | c :: r =>
      if c = '"' then
        match parseStringAux r with
        | none => none
        | some (key, r2) =>
          match r2.dropWhile jsonWs with
          | ':' :: r3 =>
            match parseValue fuel r3 with
            | none => none
            | some (v, rest) =>
              match rest.dropWhile jsonWs with
              | ',' :: r4 =>
                (parseObjItems fuel r4).map (fun p => ((⟨key⟩, v) :: p.1, p.2))
              | d :: r4 => if d = rbrace then some ([(⟨key⟩, v)], r4) else none
              | [] => none
          | _ => none
      else none
    | [] => none

end

/-- `JSON.parse`: parse a complete JSON text; anything but whitespace after
the value is an error.  The fuel bounds the nesting depth, which consumes at
least one character per two fuel units, so it never cuts off a valid
input. -/
def jsonParse (s : String) : Option Json :=
  match parseValue (2 * s.data.length + 2) s.data with
  | some (j, rest) => if (rest.dropWhile jsonWs).isEmpty then some j else none
  | none => none

/-- JavaScript truthiness of a JSON value (for `x || d` defaulting): `null`,
`false`, numeric zero and the empty string are falsy. -/
def jsTruthy : Json → Bool
  | Json.null => false
  | Json.bool b => b
  | Json.num _ i f _ => !(i.all (· = '0') && f.all (· = '0'))
  | Json.str s => s ≠ ""
  | Json.arr _ => true
  | Json.obj _ => true

/-- `obj.key` property access; `none` models JavaScript `undefined`
(including access on any non-object value). -/
def getField : Json → String → Option Json
  | Json.obj kvs, k => kvs.reverse.lookup k
  | _, _ => none

/-- `x || d` where `x` may be `undefined` (`none`). -/
def jsOr (x : Option Json) (d : Json) : Json :=
  match x with
  | some v => if jsTruthy v then v else d
  | none => d

/-- `generateColors`'s fixed ten-colour palette at a given alpha
(generate-report/route.ts). -/
def baseColors (alpha : String) : List String :=
  ["rgba(59, 130, 246, " ++ alpha ++ ")",
   "rgba(16, 185, 129, " ++ alpha ++ ")",
   "rgba(251, 146, 60, " ++ alpha ++ ")",
   "rgba(147, 51, 234, " ++ alpha ++ ")",
   "rgba(236, 72, 153, " ++ alpha ++ ")",
   "rgba(245, 158, 11, " ++ alpha ++ ")",
   "rgba(6, 182, 212, " ++ alpha ++ ")",
   "rgba(239, 68, 68, " ++ alpha ++ ")",
   "rgba(107, 114, 128, " ++ alpha ++ ")",
   "rgba(34, 197, 94, " ++ alpha ++ ")"]

/-- `generateColors(count, alpha)` (generate-report/route.ts): one colour
per data point, cycling the palette from its first entry.  The JavaScript
alpha default `0.6` is passed explicitly by the callers modelled here. -/
def generateColors (count : Nat) (alpha : String) : List String :=
  (List.range count).map (fun i => (baseColors alpha).getD (i % 10) "")

/-- A normalised dataset of a `ChartSpec`; fields hold the (possibly
defaulted) JSON values the route writes into the chart object literal. -/
structure ChartDataset where
  label : Json
  data : Json
  backgroundColor : Json
  borderColor : Json
  borderWidth : Json

/-- The `data` field of a `ChartSpec`. -/
structure ChartData where
  labels : Json
  datasets : List ChartDataset

/-- A normalised `ChartSpec` as built by `extractChartsFromContent`. -/
structure Chart where
  id : String
  type : Json
  title : Json
  data : ChartData
  options : Json

mutual

/-- JavaScript template-literal stringification, for
`[Chart: ${chart.title}]` in the placeholder.  Number rendering uses the
stored literal parts (adequate here; the exact `Number`-to-string algorithm
is not modelled). -/
def jsToString : Json → String
  | Json.null => "null"
  | Json.bool b => if b then "true" else "false"
  | Json.num neg i f e =>
    (if neg then "-" else "") ++ (⟨i⟩ : String)
      ++ (if f.isEmpty then "" else "." ++ (⟨f⟩ : String))
      ++ (if e = 0 then "" else "e" ++ toString e)
  | Json.str s => s
  | Json.arr l => jsToStringList l
  | Json.obj _ => "[object Object]"

/-- `Array.prototype.toString`: elements joined by commas, `null` rendered
empty. -/
def jsToStringList : List Json → String
  | [] => ""
  | [x] => jsToStringElem x
  | x :: y :: xs => jsToStringElem x ++ "," ++ jsToStringList (y :: xs)

/-- An array element in `Array.prototype.toString`. -/
def jsToStringElem : Json → String
  | Json.null => ""
  | j => jsToString j

end

/-- A JSON number holding a natural-number literal. -/
def natNum (n : Nat) : Json := Json.num false (toString n).data [] 0

/-- Iteration count of `for (let i = 0; i < count; i++)` when `count` is the
finite number with literal parts (sign, integer digits, fraction digits,
exponent): the ceiling of its value, and 0 when it is zero or negative. -/
def ceilIter (neg : Bool) (ip fp : List Char) (e : Int) : Nat :=
  let d := digitsToNat (ip ++ fp)
  if d = 0 || neg then 0
  else
    let k : Int := e - (fp.length : Int)
    if 0 ≤ k then d * 10 ^ k.toNat
    else (d + 10 ^ (-k).toNat - 1) / 10 ^ (-k).toNat

/-- The decimal part of `ToNumber` on a whole (already trimmed, unsigned)
string: digits, an optional fraction (a bare trailing dot is legal), an
optional exponent; the entire string must be consumed and at least one
digit present, else `NaN` (`none`).  Hex/octal/binary literal strings are
not modelled. -/
def strToNumberCore (s : List Char) : Option (List Char × List Char × Int) :=
  let p1 := digitsOf s
  let p2 : List Char × List Char :=
    match p1.2 with
    | '.' :: rr => digitsOf rr
    | _ => ([], p1.2)
  if p1.1 = [] && p2.1 = [] then none
  else
    let ep := parseExpPart p2.2
    if ep.2 = [] then some (p1.1, p2.1, ep.1) else none

/-- Loop-iteration count of `generateColors` for a string `count` (JavaScript
`ToNumber` on strings): trimmed, empty means 0, `NaN` and negative values
mean 0, `-Infinity` means 0; a `+Infinity` count would make the source loop
diverge and is mapped to 0 as the only finite stand-in. -/
def strLoopCount (s : List Char) : Nat :=
  match jsTrim s with
  | [] => 0
  | t =>
    let p : Bool × List Char :=
      match t with
      | '-' :: r => (true, r)
      | '+' :: r => (false, r)
      | _ => (false, t)
    if p.2 = "Infinity".data then 0
    else
      match strToNumberCore p.2 with
      | some q => ceilIter p.1 q.1 q.2.1 q.2.2
      | none => 0

/-- Loop-iteration count of `generateColors` for an arbitrary `count` value
(the JavaScript `i < count` comparison): numbers by their ceiling, booleans
as 0/1, `null` as 0, strings via `ToNumber`, arrays and objects via their
`ToPrimitive` string form. -/
def jsLoopCount : Json → Nat
  | Json.num neg ip fp e => ceilIter neg ip fp e
  | Json.bool b => if b then 1 else 0
  | Json.null => 0
  | Json.str s => strLoopCount s.data
  | Json.arr l => strLoopCount (jsToString (Json.arr l)).data
  | Json.obj kvs => strLoopCount (jsToString (Json.obj kvs)).data

/-- The JavaScript `length` property of a JSON value: element count for
arrays, character count for strings (code points; the surrogate-pair
distinction never arises in the claims), the `length` member for objects,
`undefined` (`none`) otherwise. -/
def lengthProp : Json → Option Json
  | Json.arr l => some (natNum l.length)
  | Json.str s => some (natNum s.length)
  | Json.obj kvs => kvs.reverse.lookup "length"
  | _ => none

/-- `ds.data?.length || 0` as consumed by `generateColors`'s counting loop:
the optional-chained `length` of the `data` value, defaulted through `||`,
then coerced to an iteration count. -/
def dataLen (ds : Json) : Nat :=
  jsLoopCount (jsOr ((getField ds "data").bind lengthProp) (natNum 0))

/-- The per-dataset normalisation inside `extractChartsFromContent`.
`none` models the `TypeError` thrown when a dataset entry is `null`
(property access on `null` throws; the enclosing `try` then routes the whole
block to the error path). -/
def buildDataset (ds : Json) : Option ChartDataset :=
  match ds with
  | Json.null => none
  | _ => some
    { label := jsOr (getField ds "label") (Json.str "Data"),
      data := jsOr (getField ds "data") (Json.arr []),
      backgroundColor := jsOr (getField ds "backgroundColor")
        (Json.arr ((generateColors (dataLen ds) "0.6").map Json.str)),
      borderColor := jsOr (getField ds "borderColor")
        (Json.arr ((generateColors (dataLen ds) "1").map Json.str)),
      borderWidth := jsOr (getField ds "borderWidth") (Json.num false ['1'] [] 0) }

/-- `datasets.map(ds => ...)`, failing if any entry fails. -/
def buildDatasets : List Json → Option (List ChartDataset)
  | [] => some []
  | ds :: rest =>
    match buildDataset ds with
    | none => none
    | some d => (buildDatasets rest).map (fun l => d :: l)

/-- Object spread `...chartSpec.options` over the literal base options: only
a parsed object actually overrides; spreading a non-object is modelled as a
no-op (JavaScript would at most add index keys for strings, which no claim
touches). -/
def mergeObj (base : List (String × Json)) (ov : Option Json) : Json :=
  match ov with
  | some (Json.obj kvs) =>
    Json.obj ((base.map (fun p => (p.1, (kvs.reverse.lookup p.1).getD p.2)))
      ++ kvs.filter (fun q => !(base.any (fun p => p.1 = q.1))))
  | _ => Json.obj base

/-- The literal `options` base of the chart object
(`extractChartsFromContent`). -/
def chartBaseOptions (spec : Json) : List (String × Json) :=
  [("responsive", Json.bool true),
   ("maintainAspectRatio", Json.bool false),
   ("plugins", Json.obj
     [("title", Json.obj
        [("display", Json.bool true),
         ("text", jsOr (getField spec "title") (Json.str ""))]),
      ("legend", Json.obj
        [("display", Json.bool true),
         ("position", Json.str "top")])])]

/-- The chart object literal built for a successfully parsed non-`null`
spec (`extractChartsFromContent`): `k` is `chartIndex` at entry to the block
(the default title uses `k + 1` because `chartIndex++` in the `id` field has
already run); `Date.now()` is modelled by the ambient clock value `now`.
`none` models a `TypeError` while normalising the datasets (truthy
non-array `datasets`, or a `null` dataset entry). -/
def buildChartCore (now k : Nat) (spec : Json) : Option Chart :=
  match jsOr ((getField spec "data").bind (fun d => getField d "datasets")) (Json.arr []) with
  | Json.arr dsList =>
    match buildDatasets dsList with
    | none => none
    | some datasets => some
      { id := "chart-" ++ toString now ++ "-" ++ toString k,
        type := jsOr (getField spec "type") (Json.str "bar"),
        title := jsOr (getField spec "title") (Json.str ("Chart " ++ toString (k + 1))),
        data :=
          { labels := jsOr ((getField spec "data").bind (fun d => getField d "labels"))
              (Json.arr []),
            datasets := datasets },
        options := mergeObj (chartBaseOptions spec) (getField spec "options") }
  | _ => none

/-- The whole chart construction for a parsed block: when `JSON.parse`
yields `null`, the first property access (`chartSpec.type`; `chartIndex++`
in the `id` field has already run) throws a `TypeError`, so the block takes
the error-marker path with no chart (`none`); any other value builds the
object literal. -/
def buildChart (now k : Nat) (spec : Json) : Option Chart :=
  match spec with
  | Json.null => none
  | _ => buildChartCore now k spec

/-- The in-place replacement for a successfully parsed chart block
(`extractChartsFromContent`). -/
def chartPlaceholder (c : Chart) : String :=
  "<div class=\"chart-container\" data-chart-id=\"" ++ c.id
    ++ "\">\n          <p class=\"text-center text-gray-500 italic\">[Chart: "
    ++ jsToString c.title ++ "]</p>\n        </div>"

/-- The in-place replacement for a chart block that failed to parse. -/
def chartErrorMarker : String :=
  "<p class=\"text-red-500\">\u26a0\ufe0f Failed to render chart</p>"

/-- The opening sentinel of a chart block. -/
def chartStartTok : List Char := "<<<CHART_START>>>".data

/-- The closing sentinel of a chart block. -/
def chartEndTok : List Char := "<<<CHART_END>>>".data

/-- `GetSubstitution` for `String.prototype.replace` with a string pattern:
`$$`, `$&` (the match), dollar-backtick (the prefix) and dollar-quote (the
suffix) are expanded; any other `$` sequence stays literal (there are no
capture groups for a string pattern). -/
def substExpand (matched before after : List Char) : List Char → List Char
  | [] => []
  | [c] => [c]
  | c :: d :: r2 =>
    if c = '$' then
      if d = '$' then '$' :: substExpand matched before after r2
      else if d = '&' then matched ++ substExpand matched before after r2
      else if d = Char.ofNat 96 then before ++ substExpand matched before after r2
      else if d = Char.ofNat 39 then after ++ substExpand matched before after r2
      else c :: substExpand matched before after (d :: r2)
    else c :: substExpand matched before after (d :: r2)

/-- `s.replace(pat, rep)` with a string pattern: replace the first
occurrence only, expanding `$` patterns in the replacement. -/
def jsReplaceFirst (s pat rep : List Char) : List Char :=
  match findSub pat s with
  | none => s
  | some (b, a) => b ++ substExpand pat b a rep ++ a

/-- The successive `chartRegex.exec` matches over the original content: the
inner text of each non-overlapping sentinel block, scanning left to right
(the lazy `[\s\S]*?` stops at the first closing sentinel). -/
def scanBlocks : Nat → List Char → List (List Char)
  | 0, _ => []
  | fuel + 1, s =>
    match findSub chartStartTok s with
    | none => []
    | some (_, r1) =>
      match findSub chartEndTok r1 with
      | none => []
      | some (inner, r2) => inner :: scanBlocks fuel r2

/-- All sentinel-block inner texts of a content string, in order. -/
def chartMatches (content : String) : List (List Char) :=
  scanBlocks content.data.length content.data

/-- One iteration of the `while` loop of `extractChartsFromContent`: the
state is (current content, charts so far, `chartIndex`).  A JSON parse
failure replaces the block with the error marker and leaves `chartIndex`
unchanged; a parse success that throws during normalisation has already run
`chartIndex++` (in the `id` field) before throwing. -/
def processBlock (now : Nat) (st : List Char × List Chart × Nat) (inner : List Char) :
    List Char × List Chart × Nat :=
  let full := chartStartTok ++ inner ++ chartEndTok
  match jsonParse ⟨inner⟩ with
  | none => (jsReplaceFirst st.1 full chartErrorMarker.data, st.2.1, st.2.2)
  | some spec =>
    match buildChart now st.2.2 spec with
    | none => (jsReplaceFirst st.1 full chartErrorMarker.data, st.2.1, st.2.2 + 1)
    | some c => (jsReplaceFirst st.1 full (chartPlaceholder c).data, st.2.1 ++ [c], st.2.2 + 1)

/-- `extractChartsFromContent` (generate-report/route.ts): find every
sentinel block of the original content, process them in order, replacing
each block in the working copy and collecting the successfully parsed
charts.  The regex scan of the source loop runs over the unmodified input
while replacements are applied to the working copy, so scanning first and
folding afterwards is an exact model of the interleaved loop. -/
def extractChartsFromContent (now : Nat) (content : String) : String × List Chart :=
  let st := (chartMatches content).foldl (processBlock now) (content.data, [], 0)
  (⟨st.1⟩, st.2.1)

/-- STEP 5 of the report route's `POST` (generate-report/route.ts, lines
145-153): charts are extracted only when `includeGraphs` is true; otherwise
the model output is returned untouched and the chart list stays empty. -/
def processModelResponse (aiContent : String) (includeGraphs : Bool) (now : Nat) :
    String × List Chart :=
  if includeGraphs then extractChartsFromContent now aiContent
  else (aiContent, [])

/-- The successful path of one block: `JSON.parse` then the chart
normalisation. -/
def parsedChart (now k : Nat) (inner : List Char) : Option Chart :=
  (jsonParse ⟨inner⟩).bind (buildChart now k)

/-- Default dataset, used only to destructure concrete outputs in
witnesses. -/
def dummyDataset : ChartDataset :=
  { label := Json.null, data := Json.null, backgroundColor := Json.null,
    borderColor := Json.null, borderWidth := Json.null }

/-- Default chart, used only to destructure concrete outputs in
witnesses. -/
def dummyChart : Chart :=
  { id := "", type := Json.null, title := Json.null,
    data := { labels := Json.null, datasets := [] }, options := Json.null }

/-- A well-formed chart block body (used by the C4 witness). -/
def c4Good : List Char :=
  "\x7b\"type\":\"bar\",\"data\":\x7b\"labels\":[\"A\"],\"datasets\":[\x7b\"label\":\"X\",\"data\":[1]\x7d]\x7d\x7d".data

/-- A malformed chart block body (used by the C4 witness). -/
def c4Bad : List Char := "not json".data

/-- Model output holding one well-formed and one malformed sentinel block. -/
def c4Content : String :=
  "A <<<CHART_START>>>" ++ (⟨c4Good⟩ : String) ++ "<<<CHART_END>>> B <<<CHART_START>>>"
    ++ (⟨c4Bad⟩ : String) ++ "<<<CHART_END>>> C"

/-- The chart the well-formed C4 block normalises to. -/
def c4Chart : Chart := (parsedChart 5 0 c4Good).getD dummyChart

/-- The chart-block JSON of the specification's example scenario (C5). -/
def c5ExampleJson : List Char :=
  "\x7b\"type\":\"bar\",\"data\":\x7b\"labels\":[\"A\",\"B\"],\"datasets\":[\x7b\"label\":\"X\",\"data\":[1,2]\x7d]\x7d\x7d".data

/-- The specification's example model response (C5). -/
def c5ExampleContent : String :=
  "<<<CHART_START>>>" ++ (⟨c5ExampleJson⟩ : String) ++ "<<<CHART_END>>>"

/-- The chart extracted from the example response. -/
def c5ExampleChart : Chart :=
  ((extractChartsFromContent 7 c5ExampleContent).2.headD dummyChart)

/-- A chart block holding two datasets, both omitting colours (C5
counterexample input). -/
def c5TwoDatasets : String :=
  "<<<CHART_START>>>\x7b\"type\":\"bar\",\"data\":\x7b\"labels\":[\"A\"],\"datasets\":[\x7b\"label\":\"X\",\"data\":[1]\x7d,\x7b\"label\":\"Y\",\"data\":[1]\x7d]\x7d\x7d<<<CHART_END>>>"

/-- The chart extracted from `c5TwoDatasets`. -/
def c5Chart2 : Chart :=
  ((extractChartsFromContent 0 c5TwoDatasets).2.headD dummyChart)

/-- A chart spec omitting `type` (C5 witness input). -/
def c5SpecA : Json := Json.obj [("data", Json.obj [("datasets", Json.arr [])])]

/-- The chart `c5SpecA` normalises to. -/
def c5ChartA : Chart := (buildChart 1 0 c5SpecA).getD dummyChart

/-- A dataset omitting its colours (C5 witness input). -/
def c5DsB : Json := Json.obj [("label", Json.str "X"), ("data", Json.arr [Json.null, Json.null])]

/-- The normalised form of `c5DsB`. -/
def c5DB : ChartDataset := (buildDataset c5DsB).getD dummyDataset

/-- The normalised dataset list of `[c5DsB]`. -/
def c5OutB : List ChartDataset := (buildDatasets [c5DsB]).getD []

/-- `haystack.includes(needle)` (JavaScript substring test). -/
def jsIncludes (haystack needle : String) : Bool :=
  (findSub needle.data haystack.data).isSome

/-- ASCII lower-casing of one character (`String.prototype.toLowerCase`;
the extension tests only involve ASCII). -/
def jsToLowerChar (c : Char) : Char :=
  if 'A' ≤ c && c ≤ 'Z' then Char.ofNat (c.toNat + 32) else c

/-- `file.name.toLowerCase()`. -/
def jsToLower (l : List Char) : List Char := l.map jsToLowerChar

/-- `s.endsWith(suffix)`. -/
def endsWithL (s suffix : List Char) : Bool := suffix.isSuffixOf s

/-- `s.startsWith(pre)`. -/
def startsWithL (s pre : List Char) : Bool := pre.isPrefixOf s

/-- The parsing strategies the upload route can select
(src/store/chat-store.ts, `POST`). -/
inductive ParserKind where
  | excel
  | pdf
  | docx
  | legacyDoc
  | csv
  | text
  | generic
  deriving DecidableEq, Repr

/-- Branch 1 guard of the `POST` dispatch: Excel extensions or a declared
type containing `spreadsheet`/`excel`.  `fileName` is lower-cased first
(`file.name.toLowerCase()`); the declared type is used as sent. -/
def excelCond (name ftype : String) : Bool :=
  endsWithL (jsToLower name.data) ".xlsx".data || endsWithL (jsToLower name.data) ".xls".data
    || jsIncludes ftype "spreadsheet" || jsIncludes ftype "excel"

/-- Branch 2 guard: `.pdf` extension or exact PDF type. -/
def pdfCond (name ftype : String) : Bool :=
  endsWithL (jsToLower name.data) ".pdf".data || ftype = "application/pdf"

/-- Branch 3 guard: `.docx` extension or exact DOCX type. -/
def docxCond (name ftype : String) : Bool :=
  endsWithL (jsToLower name.data) ".docx".data
    || ftype = "application/vnd.openxmlformats-officedocument.wordprocessingml.document"

/-- Branch 4 guard: `.doc` extension or exact legacy Word type. -/
def legacyDocCond (name ftype : String) : Bool :=
  endsWithL (jsToLower name.data) ".doc".data || ftype = "application/msword"

/-- Branch 5 guard: `.csv` extension or exact CSV type. -/
def csvCond (name ftype : String) : Bool :=
  endsWithL (jsToLower name.data) ".csv".data || ftype = "text/csv"

/-- Branch 6 guard: any `text/*` declared type or `.txt` extension. -/
def textCond (name ftype : String) : Bool :=
  startsWithL ftype.data "text/".data || endsWithL (jsToLower name.data) ".txt".data

/-- The Format Detector: the `if`/`else if` dispatch of the upload route's
`POST` handler (src/store/chat-store.ts, lines 1426-1467), a total function
of the raw file name and declared content type only; when no guard matches,
the generic/unsupported branch is taken (no exception). -/
def selectParser (name ftype : String) : ParserKind :=
  if excelCond name ftype then ParserKind.excel
  else if pdfCond name ftype then ParserKind.pdf
  else if docxCond name ftype then ParserKind.docx
  else if legacyDocCond name ftype then ParserKind.legacyDoc
  else if csvCond name ftype then ParserKind.csv
  else if textCond name ftype then ParserKind.text
  else ParserKind.generic

/-- The metadata fields `formatPreParsedContent` inspects; JavaScript
truthiness makes a zero size/row/column count and an empty type behave as
absent. -/
structure FileMeta where
  size : Nat
  type : String
  rowCount : Nat
  columnCount : Nat

/-- One entry of the `filesContent` array sent to the report route. -/
structure FileContent where
  name : String
  content : String
  metadata : Option FileMeta

/-- `sections.join('\n')` (JavaScript `Array.prototype.join`). -/
def jsJoin (sep : String) : List String → String
  | [] => ""
  | [x] => x
  | x :: y :: xs => x ++ sep ++ jsJoin sep (y :: xs)

/-- `'─'.repeat(60)`. -/
def dashRule : String := ⟨List.replicate 60 '─'⟩

/-- `'='.repeat(80)`. -/
def eqRule : String := ⟨List.replicate 80 '='⟩

/-- The lines `formatPreParsedContent` pushes for the file at index `i`
(generate-report/route.ts): banner, rule, optional metadata block, content
(or the placeholder when content is falsy), and the section separator. -/
def fileSectionLines (i : Nat) (f : FileContent) : List String :=
  ["📋 FILE " ++ toString (i + 1) ++ ": " ++ f.name, dashRule]
  ++ (match f.metadata with
      | some m =>
        ["📊 File Information:"]
        ++ (if m.size ≠ 0 then ["• Size: " ++ toString m.size ++ " bytes"] else [])
        ++ (if m.type ≠ "" then ["• Type: " ++ m.type] else [])
        ++ (if m.rowCount ≠ 0 then ["• Rows: " ++ toString m.rowCount] else [])
        ++ (if m.columnCount ≠ 0 then ["• Columns: " ++ toString m.columnCount] else [])
        ++ [""]
      | none => [])
  ++ ["📄 Content:", (if f.content ≠ "" then f.content else "[No content available]"),
      "", eqRule, ""]

/-- `filesContent.forEach((file, index) => ...)`: all section lines, in
input order. -/
def sectionsOf : Nat → List FileContent → List String
  | _, [] => []
  | i, f :: fs => fileSectionLines i f ++ sectionsOf (i + 1) fs

/-- `formatPreParsedContent` (generate-report/route.ts): header lines plus
every file's section lines, joined with newlines.  No combined-length cap
is applied. -/
def formatPreParsedContent (files : List FileContent) : String :=
  jsJoin "\n" (["📄 UPLOADED FILES DATA:", ""] ++ sectionsOf 0 files)

/-- Model of `XLSX.utils.sheet_to_json(ws, \x7bheader:1, defval:'', blankrows:false\x7d)`:
the worksheet's cell grid as rows of cell strings, with rows whose cells are
all empty removed (`blankrows:false`), missing cells already defaulted to
`''` (`defval`). -/
def sheetToJson (grid : List (List String)) : List (List String) :=
  grid.filter (fun row => row.any (fun cell => cell ≠ ""))

/-- Model of `XLSX.utils.sheet_to_csv(ws, \x7bFS:','\x7d)`: a CSV-like
rendering of the worksheet grid. -/
def sheetToCsv (grid : List (List String)) : String :=
  jsJoin "\n" (grid.map (fun row => jsJoin "," row))

/-- `String(h || '').trim()` on a string-valued cell. -/
def headerCell (h : String) : String := jsTrimS h

/-- The `insights` the Excel parser records per sheet. -/
structure XInsights where
  rowCount : Nat
  columnCount : Nat
  sheetIndex : Nat
  preview : List (List String)
  deriving DecidableEq, Repr

/-- A per-sheet table as built by `parseExcel` (src/store/chat-store.ts). -/
structure XTable where
  name : String
  headers : List String
  rows : List (List String)
  insights : XInsights
  deriving DecidableEq, Repr

/-- A default Excel table, used only to destructure concrete outputs. -/
def dummyXTable : XTable :=
  { name := "", headers := [], rows := [],
    insights := { rowCount := 0, columnCount := 0, sheetIndex := 0, preview := [] } }

/-- `jsonData[0]?.map(h => String(h || '').trim()) || []`. -/
def sheetHeaders (grid : List (List String)) : List String :=
  ((sheetToJson grid).headD []).map headerCell

/-- `jsonData.slice(1).filter(row => row.some(cell => cell !== ''))`. -/
def sheetDataRows (grid : List (List String)) : List (List String) :=
  ((sheetToJson grid).drop 1).filter (fun row => row.any (fun cell => cell ≠ ""))

/-- The table(s) one sheet contributes: none when the filtered grid is empty
or the header row is empty, else exactly one (rows capped at 1000,
`rowCount` untruncated, `preview` the first 5 rows, `sheetIndex` the sheet's
position). -/
def sheetTable (i : Nat) (nm : String) (grid : List (List String)) : List XTable :=
  if (sheetToJson grid).isEmpty then []
  else if (sheetHeaders grid).length > 0 then
    [{ name := nm,
       headers := sheetHeaders grid,
       rows := (sheetDataRows grid).take 1000,
       insights := { rowCount := (sheetDataRows grid).length,
                     columnCount := (sheetHeaders grid).length,
                     sheetIndex := i,
                     preview := (sheetDataRows grid).take 5 } }]
  else []

/-- The text one sheet contributes to `allContent`: a sheet-name banner plus
the CSV rendering, or nothing when the filtered grid is empty. -/
def sheetText (nm : String) (grid : List (List String)) : String :=
  if (sheetToJson grid).isEmpty then ""
  else "\n=== SHEET: " ++ nm ++ " ===\n" ++ sheetToCsv grid ++ "\n"

/-- The `sheets.forEach` loop of `parseExcel`, accumulating content, tables
and `totalRows` from sheet index `i` on. -/
def parseExcelAux : Nat → List (String × List (List String)) → String × List XTable × Nat
  | _, [] => ("", [], 0)
  | i, (nm, grid) :: rest =>
    let r := parseExcelAux (i + 1) rest
    (sheetText nm grid ++ r.1,
     sheetTable i nm grid ++ r.2.1,
     (if (sheetToJson grid).isEmpty then 0 else (sheetDataRows grid).length) + r.2.2)

/-- The result fields of `parseExcel` the claims are about. -/
structure ExcelResult where
  content : String
  tables : List XTable
  sheets : List String
  totalRows : Nat
  summary : String

/-- `parseExcel` (src/store/chat-store.ts): a workbook is modelled as its
sheet list (name, cell grid) as materialised by the `XLSX` library, which
is external to the repository. -/
def parseExcel (wb : List (String × List (List String))) : ExcelResult :=
  let r := parseExcelAux 0 wb
  { content := r.1,
    tables := r.2.1,
    sheets := wb.map Prod.fst,
    totalRows := r.2.2,
    summary := "Excel file with " ++ toString wb.length ++ " sheet(s) and "
      ++ toString r.2.2 ++ " total rows" }

/-- Concrete CSV whose column `b` is numeric on the first 10 data rows and
non-numeric on the 11th: exercises the sampling contract of C1. -/
def csvC1 : String :=
  "a,b\nx1,1\nx2,2\nx3,3\nx4,4\nx5,5\nx6,6\nx7,7\nx8,8\nx9,9\nx10,10\nx11,oops"

/-- The table `parseCSV` extracts from `csvC1`. -/
def tC1 : Table := (parseCSV csvC1 "f.csv").headD emptyTable

/-- Concrete CSV with 15 data rows used to instantiate C2. -/
def csvC2 : String :=
  "h\n" ++ String.intercalate "\n" (List.replicate 15 "7")

/-- The table `parseCSV` extracts from `csvC2`. -/
def tC2 : Table := (parseCSV csvC2 "big.csv").headD emptyTable

theorem mem_filterIdx {p : Nat → Bool} {l : List α} {x : α} {n : Nat} :
    x ∈ filterIdx p n l ↔ ∃ i, l.get? i = some x ∧ p (n + i) = true := by
  induction l generalizing n with
  | nil => simp [filterIdx]
  | cons a as ih =>
    simp only [filterIdx]
    by_cases hp : p n = true
    · simp only [hp, if_true, List.mem_cons]
      constructor
      · rintro (rfl | hx)
        · exact ⟨0, by simp, by simpa using hp⟩
        · obtain ⟨i, hi, hpi⟩ := ih.1 hx
          exact ⟨i + 1, by simpa using hi, by
            have : n + 1 + i = n + (i + 1) := by omega
            simpa [this] using hpi⟩
      · rintro ⟨i, hi, hpi⟩
        cases i with
        | zero => left; simp at hi; exact hi.symm
        | succ j => right; exact ih.2 ⟨j, by simpa using hi, by
            have : n + 1 + j = n + (j + 1) := by omega
            simpa [this] using hpi⟩
    · simp only [hp, if_false]
      constructor
      · intro hx
        obtain ⟨i, hi, hpi⟩ := ih.1 hx
        exact ⟨i + 1, by simpa using hi, by
          have : n + 1 + i = n + (i + 1) := by omega
          simpa [this] using hpi⟩
      · rintro ⟨i, hi, hpi⟩
        cases i with
        | zero =>
          simp at hi
          subst hi
          simp at hpi
          exact absurd hpi hp
        | succ j => exact ih.2 ⟨j, by simpa using hi, by
            have : n + 1 + j = n + (j + 1) := by omega
            simpa [this] using hpi⟩

/-- C1: a header is listed in `insights.numericColumns` iff at (one of) its
position(s) every one of the first 10 rows (or all rows when fewer) has a
non-empty cell that `parseFloat` accepts; consequently a header is in
`categoricalColumns` iff it is a header not listed numeric. The sample is
taken from the parsed rows, so an 11th non-numeric row cannot demote a
column and an empty cell inside the sample does. -/
theorem claim_C1 (content fileName : String) (t : Table)
    (h : parseCSV content fileName = [t]) (hd : String) :
    (hd ∈ t.insights.numericColumns ↔
      ∃ i, t.headers.get? i = some hd ∧
        ((t.rows.take 10).all (fun row => rowCellNumeric row i)) = true)
    ∧ (hd ∈ t.insights.categoricalColumns ↔
        hd ∈ t.headers ∧ hd ∉ t.insights.numericColumns) := by
  unfold parseCSV at h
  by_cases hlen : (nonblankLines content).length < 2
  · simp [hlen] at h
  · simp only [hlen, if_false] at h
    obtain rfl : t = _ := (List.cons.injEq _ _ _ _ ▸ h).1.symm
    constructor
    · rw [mem_filterIdx]
      constructor
      · rintro ⟨i, hi, hpi⟩
        refine ⟨i, hi, ?_⟩
        simp only [Nat.zero_add] at hpi
        simpa [sampleNumeric, List.take_take] using hpi
      · rintro ⟨i, hi, hpi⟩
        refine ⟨i, hi, ?_⟩
        simp only [Nat.zero_add]
        simpa [sampleNumeric, List.take_take] using hpi
    · simp [List.mem_filter]

/-- C2: the emitted rows are capped at 1000 while `insights.rowCount` is the
untruncated number of data rows (non-blank lines minus the header line), and
`insights.preview` is the first 5 rows. -/
theorem claim_C2 (content fileName : String) (t : Table)
    (h : parseCSV content fileName = [t]) :
    t.rows.length ≤ 1000
    ∧ t.insights.rowCount = (nonblankLines content).length - 1
    ∧ t.insights.preview = t.rows.take 5 := by
  unfold parseCSV at h
  by_cases hlen : (nonblankLines content).length < 2
  · simp [hlen] at h
  · simp only [hlen, if_false] at h
    obtain rfl : t = _ := (List.cons.injEq _ _ _ _ ▸ h).1.symm
    refine ⟨?_, ?_, ?_⟩
    · simp
    · simp
    · simp [List.take_take]

/-- `'"' :: f ++ ['"']` — a CSV field wrapped in double quotes. -/
def quoteField (f : List Char) : List Char := '"' :: (f ++ ['"'])

/-- A CSV line made of double-quoted fields joined by commas. -/
def joinQuoted : List (List Char) → List Char
  | [] => []
  | [f] => quoteField f
  | f :: g :: fs => quoteField f ++ ',' :: joinQuoted (g :: fs)

theorem parseCSVLineAux_quoted_consume (f : List Char) (hf : '"' ∉ f) :
    ∀ (rest cur : List Char),
      parseCSVLineAux (f ++ rest) true cur = parseCSVLineAux rest true (cur ++ f) := by
  induction f with
  | nil => intro rest cur; simp
  | cons c f ih =>
    intro rest cur
    have hc : ¬ c = '"' := fun hc => hf (hc ▸ List.mem_cons_self c f)
    have hf' : '"' ∉ f := fun hm => hf (List.mem_cons_of_mem c hm)
    simp only [List.cons_append, parseCSVLineAux, if_neg hc, Bool.not_true,
      Bool.and_false, Bool.false_eq_true, if_false, List.append_nil, List.append_eq]
    rw [ih hf']
    simp [List.append_assoc]

theorem parseCSVLineAux_joinQuoted (fs : List (List Char)) (hne : fs ≠ [])
    (hf : ∀ f ∈ fs, '"' ∉ f ∧ jsTrim f = f) :
    parseCSVLineAux (joinQuoted fs) false [] = fs := by
  induction fs with
  | nil => exact absurd rfl hne
  | cons f gs ih =>
    obtain ⟨hq, ht⟩ := hf f (List.mem_cons_self f gs)
    cases gs with
    | nil =>
      show parseCSVLineAux (quoteField f) false [] = [f]
      simp only [quoteField, parseCSVLineAux, if_pos rfl, Bool.not_false]
      rw [parseCSVLineAux_quoted_consume f hq]
      simp [parseCSVLineAux, ht]
    | cons g gs' =>
      have hf' : ∀ x ∈ g :: gs', '"' ∉ x ∧ jsTrim x = x :=
        fun x hx => hf x (List.mem_cons_of_mem f hx)
      have e1 : joinQuoted (f :: g :: gs')
          = '"' :: (f ++ ('"' :: ',' :: joinQuoted (g :: gs'))) := by
        simp [joinQuoted, quoteField, List.append_assoc]
      rw [e1]
      simp only [parseCSVLineAux, if_pos rfl, Bool.not_false]
      rw [parseCSVLineAux_quoted_consume f hq]
      simp only [List.nil_append, parseCSVLineAux, if_pos rfl, Bool.not_true]
      rw [ih (by simp) hf']
      simp [ht]

/-- C3: (1) a CSV text with at least two non-blank lines parses into one
table whose reported row count is the number of non-blank lines minus one;
(2) a line of double-quoted fields (quote-free and trim-invariant, but
possibly containing commas) parses back to exactly those fields: embedded
commas are kept as literal cell content, never treated as column breaks. -/
theorem claim_C3 :
    (∀ content fileName : String, 2 ≤ (nonblankLines content).length →
       ∃ t, parseCSV content fileName = [t] ∧
         t.insights.rowCount = (nonblankLines content).length - 1)
    ∧ (∀ fs : List (List Char), fs ≠ [] →
        (∀ f ∈ fs, '"' ∉ f ∧ jsTrim f = f) →
        parseCSVLine (joinQuoted fs) = fs.map (fun l => ⟨l⟩)) := by
  constructor
  · intro content fileName hlen
    have hnot : ¬ (nonblankLines content).length < 2 := by omega
    unfold parseCSV
    simp only [hnot, if_false]
    exact ⟨_, rfl, by simp⟩
  · intro fs hne hf
    unfold parseCSVLine
    rw [parseCSVLineAux_joinQuoted fs hne hf]

/-- Witness for C1 on `csvC1`: the numeric-column membership contract holds
for header `b` (whose 11th data row is non-numeric). -/
theorem claim_C1_witness :
    ("b" ∈ tC1.insights.numericColumns ↔
      ∃ i, tC1.headers.get? i = some "b" ∧
        ((tC1.rows.take 10).all (fun row => rowCellNumeric row i)) = true)
    ∧ ("b" ∈ tC1.insights.categoricalColumns ↔
        "b" ∈ tC1.headers ∧ "b" ∉ tC1.insights.numericColumns) :=
  claim_C1 csvC1 "f.csv" tC1 (by decide) "b"

set_option maxRecDepth 2000 in
/-- Witness for C2 on `csvC2`. -/
theorem claim_C2_witness :
    tC2.rows.length ≤ 1000
    ∧ tC2.insights.rowCount = (nonblankLines csvC2).length - 1
    ∧ tC2.insights.preview = tC2.rows.take 5 :=
  claim_C2 csvC2 "big.csv" tC2 (by decide)

/-- Witness for C3: a two-line CSV, and the quoted line `"a,b","c"`. -/
theorem claim_C3_witness :
    (∃ t, parseCSV "a,b\n1,2" "f.csv" = [t] ∧
       t.insights.rowCount = (nonblankLines "a,b\n1,2").length - 1)
    ∧ parseCSVLine (joinQuoted ["a,b".data, "c".data])
        = (["a,b".data, "c".data]).map (fun l => ⟨l⟩) :=
  ⟨claim_C3.1 "a,b\n1,2" "f.csv" (by decide),
   claim_C3.2 ["a,b".data, "c".data] (by decide) (by decide)⟩

theorem findSub_sound {pat : List Char} : ∀ {s b a : List Char},
    findSub pat s = some (b, a) → s = b ++ pat ++ a := by
  intro s
  induction s with
  | nil =>
    intro b a h
    unfold findSub at h
    by_cases hp : pat.isEmpty
    · rw [if_pos hp] at h
      obtain ⟨rfl, rfl⟩ := Prod.mk.injEq _ _ _ _ ▸ Option.some.inj h
      simp [List.isEmpty_iff.mp hp]
    · rw [if_neg hp] at h
      exact absurd h (by simp)
  | cons c rest ih =>
    intro b a h
    unfold findSub at h
    by_cases hp : pat.isPrefixOf (c :: rest) = true
    · rw [if_pos hp] at h
      obtain ⟨rfl, rfl⟩ := Prod.mk.injEq _ _ _ _ ▸ Option.some.inj h
      obtain ⟨t, ht⟩ := List.isPrefixOf_iff_prefix.mp hp
      calc c :: rest = pat ++ t := ht.symm
        _ = [] ++ pat ++ (pat ++ t).drop pat.length := by
            rw [List.drop_left]; simp
        _ = [] ++ pat ++ (c :: rest).drop pat.length := by rw [ht]
    · rw [if_neg hp] at h
      cases hfs : findSub pat rest with
      | none => rw [hfs] at h; exact absurd h (by simp)
      | some p =>
        obtain ⟨b2, a2⟩ := p
        rw [hfs] at h
        obtain ⟨rfl, rfl⟩ := Prod.mk.injEq _ _ _ _ ▸ Option.some.inj h
        have := ih hfs
        simp [this]

theorem findSub_not_found {pat : List Char} (hpat : pat ≠ []) :
    ∀ {s : List Char}, findSub pat s = none → ∀ b a, s ≠ b ++ pat ++ a := by
  intro s
  induction s with
  | nil =>
    intro _ b a heq
    have : pat.length = 0 := by
      have := congrArg List.length heq
      simp at this
      omega
    exact hpat (List.eq_nil_of_length_eq_zero this)
  | cons c rest ih =>
    intro h b a heq
    unfold findSub at h
    by_cases hp : pat.isPrefixOf (c :: rest) = true
    · rw [if_pos hp] at h; exact absurd h (by simp)
    · rw [if_neg hp] at h
      cases b with
      | nil =>
        refine hp ?_
        exact List.isPrefixOf_iff_prefix.mpr ⟨a, by simpa using heq.symm⟩
      | cons x b2 =>
        rw [List.cons_append, List.cons_append] at heq
        injection heq with h1 h2
        cases hfs : findSub pat rest with
        | none => exact ih hfs b2 a h2
        | some p => rw [hfs] at h; exact absurd h (by simp)

theorem chartMatches_nil_of_no_pair {content : String}
    (h : ¬ ∃ pre mid post : List Char,
        content.data = pre ++ chartStartTok ++ mid ++ chartEndTok ++ post) :
    chartMatches content = [] := by
  unfold chartMatches
  cases hd : content.data.length with
  | zero => rfl
  | succ n =>
    unfold scanBlocks
    cases hs : findSub chartStartTok content.data with
    | none => rfl
    | some p =>
      obtain ⟨pre, r1⟩ := p
      cases he : findSub chartEndTok r1 with
      | none => simp [he]
      | some q =>
        obtain ⟨mid, r2⟩ := q
        refine absurd ⟨pre, mid, r2, ?_⟩ h
        have h1 := findSub_sound hs
        have h2 := findSub_sound he
        rw [h1, h2]
        simp [List.append_assoc]

/-- C9: on content with no occurrence of the sentinel pair, the
post-processor returns the input unchanged and an empty chart list. -/
theorem claim_C9 (content : String) (now : Nat)
    (h : ¬ ∃ pre mid post : List Char,
        content.data = pre ++ chartStartTok ++ mid ++ chartEndTok ++ post) :
    extractChartsFromContent now content = (content, []) := by
  unfold extractChartsFromContent
  rw [chartMatches_nil_of_no_pair h]
  rfl

/-- Witness for C9 on a sentinel-free content string. -/
theorem claim_C9_witness :
    extractChartsFromContent 0 "report <b>done</b>" = ("report <b>done</b>", []) :=
  claim_C9 "report <b>done</b>" 0 (by
    rintro ⟨pre, mid, post, heq⟩
    have hn : findSub chartStartTok "report <b>done</b>".data = none := by decide
    exact findSub_not_found (by decide) hn pre (mid ++ chartEndTok ++ post)
      (by simpa [List.append_assoc] using heq))

/-- C10: with `includeGraphs` false the model output is returned verbatim
(any sentinel blocks included) with an empty chart list; extraction runs
exactly when `includeGraphs` is true. -/
theorem claim_C10 (aiContent : String) (now : Nat) :
    processModelResponse aiContent false now = (aiContent, [])
    ∧ processModelResponse aiContent true now = extractChartsFromContent now aiContent := by
  exact ⟨rfl, rfl⟩

/-- C4: when the scanner finds exactly two blocks, one well-formed (parsing
and normalising to a chart `c`) and one malformed (JSON parse failure), the
extractor returns exactly the one chart, substitutes the well-formed block
by the placeholder carrying `c`'s id, substitutes the malformed block by the
visible error marker, and — in the malformed-first case — demonstrably keeps
processing past the failed block. -/
theorem claim_C4 (content : String) (now : Nat) (s1 s2 : List Char)
    (hm : chartMatches content = [s1, s2]) :
    (∀ c, jsonParse ⟨s2⟩ = none → parsedChart now 0 s1 = some c →
      extractChartsFromContent now content =
        (⟨jsReplaceFirst
            (jsReplaceFirst content.data (chartStartTok ++ s1 ++ chartEndTok)
              (chartPlaceholder c).data)
            (chartStartTok ++ s2 ++ chartEndTok) chartErrorMarker.data⟩,
         [c]))
    ∧ (∀ c, jsonParse ⟨s1⟩ = none → parsedChart now 0 s2 = some c →
      extractChartsFromContent now content =
        (⟨jsReplaceFirst
            (jsReplaceFirst content.data (chartStartTok ++ s1 ++ chartEndTok)
              chartErrorMarker.data)
            (chartStartTok ++ s2 ++ chartEndTok) (chartPlaceholder c).data⟩,
         [c])) := by
  constructor
  · intro c h2 h1
    unfold parsedChart at h1
    cases hj : jsonParse (⟨s1⟩ : String) with
    | none => rw [hj] at h1; exact absurd h1 (by simp)
    | some spec =>
      rw [hj] at h1
      simp only [Option.some_bind] at h1
      unfold extractChartsFromContent
      rw [hm]
      simp only [List.foldl_cons, List.foldl_nil]
      unfold processBlock
      simp [hj, h1, h2]
  · intro c h1 h2
    unfold parsedChart at h2
    cases hj : jsonParse (⟨s2⟩ : String) with
    | none => rw [hj] at h2; exact absurd h2 (by simp)
    | some spec =>
      rw [hj] at h2
      simp only [Option.some_bind] at h2
      unfold extractChartsFromContent
      rw [hm]
      simp only [List.foldl_cons, List.foldl_nil]
      unfold processBlock
      simp [h1, hj, h2]

set_option maxRecDepth 4000 in
/-- Witness for C4 on `c4Content` (well-formed block first, malformed block
second). -/
theorem claim_C4_witness :
    extractChartsFromContent 5 c4Content =
      (⟨jsReplaceFirst
          (jsReplaceFirst c4Content.data (chartStartTok ++ c4Good ++ chartEndTok)
            (chartPlaceholder c4Chart).data)
          (chartStartTok ++ c4Bad ++ chartEndTok) chartErrorMarker.data⟩,
       [c4Chart]) :=
  (claim_C4 c4Content 5 c4Good c4Bad (by decide)).1 c4Chart rfl rfl

set_option maxRecDepth 4000 in
/-- C5 counterexample: in `c5TwoDatasets` both datasets omit colours; the
dataset at position 1 nevertheless receives the palette colours starting
from the palette's FIRST entry (cycled by data-point index), not the
palette entry at its dataset position — so colours are not "indexed by
dataset position" as the claim states. -/
theorem claim_C5_counterexample :
    ((c5Chart2.data.datasets.getD 1 dummyDataset).backgroundColor
        = Json.arr [Json.str "rgba(59, 130, 246, 0.6)"])
    ∧ ((c5Chart2.data.datasets.getD 0 dummyDataset).backgroundColor
        = Json.arr [Json.str "rgba(59, 130, 246, 0.6)"])
    ∧ Json.arr [Json.str "rgba(59, 130, 246, 0.6)"]
        ≠ Json.arr [Json.str "rgba(16, 185, 129, 0.6)"] := by
  refine ⟨rfl, rfl, ?_⟩
  intro h
  have h1 := Json.arr.inj h
  simp only [List.cons.injEq, Json.str.injEq] at h1
  exact absurd h1.1 (by decide)

theorem buildChartCore_type (now k : Nat) (spec : Json) (c : Chart)
    (hb : buildChartCore now k spec = some c) (ht : getField spec "type" = none) :
    c.type = Json.str "bar" := by
  unfold buildChartCore at hb
  cases hv : jsOr ((getField spec "data").bind (fun d => getField d "datasets")) (Json.arr []) with
  | arr dsList =>
    simp only [hv] at hb
    cases hds : buildDatasets dsList with
    | none => rw [hds] at hb; exact absurd hb (by simp)
    | some datasets =>
      rw [hds] at hb
      have hc := Option.some.inj hb
      rw [← hc]
      simp [ht, jsOr]
  | null => simp only [hv] at hb; exact absurd hb (by simp)
  | bool b => simp only [hv] at hb; exact absurd hb (by simp)
  | num a b c' d => simp only [hv] at hb; exact absurd hb (by simp)
  | str a => simp only [hv] at hb; exact absurd hb (by simp)
  | obj a => simp only [hv] at hb; exact absurd hb (by simp)

set_option maxRecDepth 4000 in
/-- C5 (amended): a successfully normalised chart defaults a missing `type`
to "bar"; datasets are normalised positionally; a dataset omitting
`backgroundColor`/`borderColor` receives one palette colour per data point,
cycling the fixed ten-colour palette from its first entry (by data-point
index, identically for every dataset position); and on the specification's
example response the single chart's `backgroundColor` is the palette prefix
starting at the palette's first entry, with the sentinel block replaced by
the placeholder carrying the chart's id. -/
theorem claim_C5 :
    (∀ (now k : Nat) (spec : Json) (c : Chart), buildChart now k spec = some c →
       getField spec "type" = none → c.type = Json.str "bar")
    ∧ (∀ (dsList : List Json) (out : List ChartDataset),
        buildDatasets dsList = some out →
        ∀ i, out.get? i = (dsList.get? i).bind buildDataset)
    ∧ (∀ (ds : Json) (d : ChartDataset), buildDataset ds = some d →
        (getField ds "backgroundColor" = none →
          d.backgroundColor = Json.arr ((generateColors (dataLen ds) "0.6").map Json.str))
        ∧ (getField ds "borderColor" = none →
          d.borderColor = Json.arr ((generateColors (dataLen ds) "1").map Json.str)))
    ∧ (∀ (count : Nat) (alpha : String),
        (generateColors count alpha).length = count
        ∧ ∀ i, i < count →
            (generateColors count alpha).get? i = some ((baseColors alpha).getD (i % 10) ""))
    ∧ ((extractChartsFromContent 7 c5ExampleContent).2 = [c5ExampleChart]
        ∧ (c5ExampleChart.data.datasets.headD dummyDataset).backgroundColor
            = Json.arr [Json.str "rgba(59, 130, 246, 0.6)", Json.str "rgba(16, 185, 129, 0.6)"]
        ∧ (extractChartsFromContent 7 c5ExampleContent).1
            = ⟨jsReplaceFirst c5ExampleContent.data
                (chartStartTok ++ c5ExampleJson ++ chartEndTok)
                (chartPlaceholder c5ExampleChart).data⟩) := by
  refine ⟨?_, ?_, ?_, ?_, rfl, rfl, rfl⟩
  · intro now k spec c hb ht
    cases spec with
    | null => exact absurd hb (by simp [buildChart])
    | bool b => exact buildChartCore_type now k (Json.bool b) c (by exact hb) ht
    | num a b' c' d => exact buildChartCore_type now k (Json.num a b' c' d) c (by exact hb) ht
    | str a => exact buildChartCore_type now k (Json.str a) c (by exact hb) ht
    | arr a => exact buildChartCore_type now k (Json.arr a) c (by exact hb) ht
    | obj a => exact buildChartCore_type now k (Json.obj a) c (by exact hb) ht
  · intro dsList
    induction dsList with
    | nil =>
      intro out h i
      have : out = [] := by simpa [buildDatasets] using h.symm
      simp [this]
    | cons ds rest ih =>
      intro out h i
      unfold buildDatasets at h
      cases hd : buildDataset ds with
      | none => rw [hd] at h; exact absurd h (by simp)
      | some d =>
        rw [hd] at h
        cases hr : buildDatasets rest with
        | none => rw [hr] at h; exact absurd h (by simp)
        | some l =>
          rw [hr] at h
          simp only [Option.map_some] at h
          obtain rfl := (Option.some.inj h).symm
          cases i with
          | zero => simp [hd]
          | succ j => simpa using ih l hr j
  · intro ds d hb
    cases ds with
    | null => exact absurd hb (by simp [buildDataset])
    | bool b =>
      obtain rfl := (Option.some.inj hb).symm
      exact ⟨fun h => by simp [h, jsOr], fun h => by simp [h, jsOr]⟩
    | num a b c' e =>
      obtain rfl := (Option.some.inj hb).symm
      exact ⟨fun h => by simp [h, jsOr], fun h => by simp [h, jsOr]⟩
    | str a =>
      obtain rfl := (Option.some.inj hb).symm
      exact ⟨fun h => by simp [h, jsOr], fun h => by simp [h, jsOr]⟩
    | arr a =>
      obtain rfl := (Option.some.inj hb).symm
      exact ⟨fun h => by simp [h, jsOr], fun h => by simp [h, jsOr]⟩
    | obj a =>
      obtain rfl := (Option.some.inj hb).symm
      exact ⟨fun h => by simp [h, jsOr], fun h => by simp [h, jsOr]⟩
  · intro count alpha
    refine ⟨by simp [generateColors], fun i hi => ?_⟩
    simp [generateColors, List.get?_eq_getElem?, List.getElem?_map, List.getElem?_range, hi]

/-- Witness for C5 (amended) at concrete inputs: a spec omitting `type`, a
dataset omitting its colours, and the palette at count 3. -/
theorem claim_C5_witness :
    c5ChartA.type = Json.str "bar"
    ∧ c5OutB.get? 0 = ([c5DsB].get? 0).bind buildDataset
    ∧ (c5DB.backgroundColor = Json.arr ((generateColors (dataLen c5DsB) "0.6").map Json.str)
       ∧ c5DB.borderColor = Json.arr ((generateColors (dataLen c5DsB) "1").map Json.str))
    ∧ ((generateColors 3 "0.6").length = 3
       ∧ (generateColors 3 "0.6").get? 2 = some ((baseColors "0.6").getD (2 % 10) "")) :=
  ⟨claim_C5.1 1 0 c5SpecA c5ChartA rfl rfl,
   claim_C5.2.1 [c5DsB] c5OutB rfl 0,
   ⟨((claim_C5.2.2.1) c5DsB c5DB rfl).1 rfl, ((claim_C5.2.2.1) c5DsB c5DB rfl).2 rfl⟩,
   ⟨(claim_C5.2.2.2.1 3 "0.6").1, (claim_C5.2.2.2.1 3 "0.6").2 2 (by decide)⟩⟩

/-- C6 counterexample: `data.csv` declared as an Excel MIME type is routed
to the Excel parser — the declared content-type of an earlier branch beats
the explicit `.csv` extension of a later branch, so an explicit extension
match does NOT take precedence over the declared content-type. -/
theorem claim_C6_counterexample :
    selectParser "data.csv" "application/vnd.ms-excel" = ParserKind.excel
    ∧ ParserKind.excel ≠ ParserKind.csv := by
  exact ⟨rfl, by decide⟩

/-- C6 (amended): the detector is a total function of (filename, declared
type) alone, selecting exactly one parser by trying the format guards in
the fixed order Excel, PDF, DOCX, legacy DOC, CSV, text — each guard mixing
extension and declared-type tests — with the first match winning (so an
earlier format's declared-type match overrides a later format's extension
match), and falling through to the generic/unsupported parser, never an
error, when no guard matches. -/
theorem claim_C6 (name ftype : String) :
    (selectParser name ftype = ParserKind.excel ↔ excelCond name ftype = true)
    ∧ (selectParser name ftype = ParserKind.pdf ↔
        (excelCond name ftype = false ∧ pdfCond name ftype = true))
    ∧ (selectParser name ftype = ParserKind.docx ↔
        (excelCond name ftype = false ∧ pdfCond name ftype = false
          ∧ docxCond name ftype = true))
    ∧ (selectParser name ftype = ParserKind.legacyDoc ↔
        (excelCond name ftype = false ∧ pdfCond name ftype = false
          ∧ docxCond name ftype = false ∧ legacyDocCond name ftype = true))
    ∧ (selectParser name ftype = ParserKind.csv ↔
        (excelCond name ftype = false ∧ pdfCond name ftype = false
          ∧ docxCond name ftype = false ∧ legacyDocCond name ftype = false
          ∧ csvCond name ftype = true))
    ∧ (selectParser name ftype = ParserKind.text ↔
        (excelCond name ftype = false ∧ pdfCond name ftype = false
          ∧ docxCond name ftype = false ∧ legacyDocCond name ftype = false
          ∧ csvCond name ftype = false ∧ textCond name ftype = true))
    ∧ (selectParser name ftype = ParserKind.generic ↔
        (excelCond name ftype = false ∧ pdfCond name ftype = false
          ∧ docxCond name ftype = false ∧ legacyDocCond name ftype = false
          ∧ csvCond name ftype = false ∧ textCond name ftype = false)) := by
  unfold selectParser
  by_cases h1 : excelCond name ftype = true <;>
    by_cases h2 : pdfCond name ftype = true <;>
      by_cases h3 : docxCond name ftype = true <;>
        by_cases h4 : legacyDocCond name ftype = true <;>
          by_cases h5 : csvCond name ftype = true <;>
            by_cases h6 : textCond name ftype = true <;>
              simp_all

theorem le_length_jsJoin (sep : String) {s : String} : ∀ {l : List String},
    s ∈ l → s.length ≤ (jsJoin sep l).length := by
  intro l
  induction l with
  | nil => intro h; cases h
  | cons x xs ih =>
    intro h
    cases xs with
    | nil =>
      have hx : s = x := List.mem_singleton.mp h
      subst hx
      simp [jsJoin]
    | cons y ys =>
      rcases List.mem_cons.mp h with rfl | hmem
      · simp [jsJoin, String.length_append]
        omega
      · have := ih hmem
        simp only [jsJoin, String.length_append] at this ⊢
        omega

theorem jsJoin_append (sep : String) : ∀ (a b : List String), a ≠ [] → b ≠ [] →
    jsJoin sep (a ++ b) = jsJoin sep a ++ sep ++ jsJoin sep b := by
  intro a
  induction a with
  | nil => intro b h _; exact absurd rfl h
  | cons x xs ih =>
    intro b _ hb
    cases xs with
    | nil =>
      cases b with
      | nil => exact absurd rfl hb
      | cons y ys => simp [jsJoin]
    | cons z zs =>
      have hmain := ih b (by simp) hb
      calc jsJoin sep ((x :: z :: zs) ++ b)
          = x ++ sep ++ jsJoin sep ((z :: zs) ++ b) := rfl
        _ = x ++ sep ++ (jsJoin sep (z :: zs) ++ sep ++ jsJoin sep b) := by rw [hmain]
        _ = (x ++ sep ++ jsJoin sep (z :: zs)) ++ sep ++ jsJoin sep b := by
              simp [String.append_assoc]
        _ = jsJoin sep (x :: z :: zs) ++ sep ++ jsJoin sep b := rfl

theorem sectionsOf_append : ∀ (fs : List FileContent) (f : FileContent) (i : Nat),
    sectionsOf i (fs ++ [f]) = sectionsOf i fs ++ fileSectionLines (i + fs.length) f := by
  intro fs
  induction fs with
  | nil => intro f i; simp [sectionsOf]
  | cons g gs ih =>
    intro f i
    simp only [List.cons_append, sectionsOf, List.length_cons, List.append_eq]
    rw [ih f (i + 1)]
    have h2 : i + 1 + gs.length = i + (gs.length + 1) := by omega
    rw [h2, List.append_assoc]

/-- C7 counterexample: the Content Normalizer applies no combined-length
cap — no bound can dominate `formatPreParsedContent`'s output length, since
a single file's content is embedded whole. -/
theorem claim_C7_counterexample :
    ¬ ∃ cap : Nat, ∀ files : List FileContent,
        (formatPreParsedContent files).length ≤ cap := by
  rintro ⟨cap, hcap⟩
  have hne : (⟨List.replicate (cap + 1) 'a'⟩ : String) ≠ "" := by
    intro h
    have := congrArg String.data h
    simp at this
  have hmem : (⟨List.replicate (cap + 1) 'a'⟩ : String)
      ∈ ["📄 UPLOADED FILES DATA:", ""]
        ++ sectionsOf 0 [⟨"f", ⟨List.replicate (cap + 1) 'a'⟩, none⟩] := by
    simp only [sectionsOf, fileSectionLines, List.append_nil, if_pos hne]
    simp
  have hlen := le_length_jsJoin "\n" hmem
  have hlen2 : (⟨List.replicate (cap + 1) 'a'⟩ : String).length = cap + 1 := by
    show (List.replicate (cap + 1) 'a').length = cap + 1
    simp
  have := hcap [⟨"f", ⟨List.replicate (cap + 1) 'a'⟩, none⟩]
  unfold formatPreParsedContent at this
  omega

/-- C7 (amended): the normalizer emits one delimited section per file in
exactly the supplied order — appending a file appends exactly its banner
section at the end of the output — but no combined-length cap is applied
(see the counterexample); bounding relies on upstream per-file truncation
and the model API's own request-too-large error. -/
theorem claim_C7 (files : List FileContent) (f : FileContent) :
    formatPreParsedContent (files ++ [f]) =
      formatPreParsedContent files ++ "\n"
        ++ jsJoin "\n" (fileSectionLines files.length f) := by
  unfold formatPreParsedContent
  rw [sectionsOf_append files f 0]
  rw [show (["📄 UPLOADED FILES DATA:", ""]
      ++ (sectionsOf 0 files ++ fileSectionLines (0 + files.length) f))
    = (["📄 UPLOADED FILES DATA:", ""] ++ sectionsOf 0 files)
      ++ fileSectionLines (0 + files.length) f by simp [List.append_assoc]]
  rw [jsJoin_append "\n" _ _ (by simp) (by
    unfold fileSectionLines
    simp)]
  simp

theorem sheetTable_of_dataRows {grid : List (List String)}
    (h : sheetDataRows grid ≠ []) (i : Nat) (nm : String) :
    sheetTable i nm grid =
      [{ name := nm,
         headers := sheetHeaders grid,
         rows := (sheetDataRows grid).take 1000,
         insights := { rowCount := (sheetDataRows grid).length,
                       columnCount := (sheetHeaders grid).length,
                       sheetIndex := i,
                       preview := (sheetDataRows grid).take 5 } }] := by
  have hjson : sheetToJson grid ≠ [] := by
    intro he
    apply h
    unfold sheetDataRows
    rw [he]
    rfl
  have hlen : (sheetHeaders grid).length > 0 := by
    cases hj : sheetToJson grid with
    | nil => exact absurd hj hjson
    | cons r0 rs =>
      have hr0 : r0 ∈ grid.filter (fun row => row.any (fun cell => cell ≠ "")) := by
        have : r0 ∈ sheetToJson grid := by rw [hj]; exact List.mem_cons_self _ _
        simpa [sheetToJson] using this
      have hpred := List.of_mem_filter hr0
      have hne : r0 ≠ [] := by
        intro h0
        rw [h0] at hpred
        simp at hpred
      unfold sheetHeaders
      rw [hj]
      simpa using List.length_pos.mpr hne
  unfold sheetTable
  rw [if_neg (by simpa [List.isEmpty_iff] using hjson), if_pos hlen]

theorem parseExcelAux_mem :
    ∀ (wb : List (String × List (List String))) (i p : Nat) (nm : String)
      (grid : List (List String)),
    wb.get? p = some (nm, grid) → sheetDataRows grid ≠ [] →
    ∃ t ∈ (parseExcelAux i wb).2.1, t.name = nm ∧ t.headers = sheetHeaders grid
      ∧ t.rows = (sheetDataRows grid).take 1000
      ∧ t.insights.rowCount = (sheetDataRows grid).length
      ∧ t.insights.sheetIndex = i + p := by
  intro wb
  induction wb with
  | nil => intro i p nm grid h _; simp at h
  | cons sheet rest ih =>
    intro i p nm grid h hd
    obtain ⟨snm, sgrid⟩ := sheet
    cases p with
    | zero =>
      have h2 : snm = nm ∧ sgrid = grid := by simpa using h
      obtain ⟨rfl, rfl⟩ := h2
      refine ⟨{ name := snm,
                headers := sheetHeaders sgrid,
                rows := (sheetDataRows sgrid).take 1000,
                insights := { rowCount := (sheetDataRows sgrid).length,
                              columnCount := (sheetHeaders sgrid).length,
                              sheetIndex := i,
                              preview := (sheetDataRows sgrid).take 5 } }, ?_,
              rfl, rfl, rfl, rfl, by simp⟩
      show _ ∈ (parseExcelAux i ((snm, sgrid) :: rest)).2.1
      simp only [parseExcelAux]
      rw [sheetTable_of_dataRows hd i snm]
      exact List.mem_append_left _ (List.mem_singleton.mpr rfl)
    | succ q =>
      have h2 : rest.get? q = some (nm, grid) := by simpa using h
      obtain ⟨t, ht, h1, h3, h4, h5, h6⟩ := ih (i + 1) q nm grid h2 hd
      refine ⟨t, ?_, h1, h3, h4, h5, by rw [h6]; omega⟩
      show t ∈ (parseExcelAux i ((snm, sgrid) :: rest)).2.1
      simp only [parseExcelAux]
      exact List.mem_append_right _ ht

theorem parseExcelAux_content :
    ∀ (wb : List (String × List (List String))) (i : Nat),
    (parseExcelAux i wb).1
      = (wb.map (fun p => sheetText p.1 p.2)).foldr (fun a b => a ++ b) "" := by
  intro wb
  induction wb with
  | nil => intro i; rfl
  | cons sheet rest ih =>
    intro i
    obtain ⟨nm, grid⟩ := sheet
    simp only [parseExcelAux, List.map_cons, List.foldr_cons, ih]

/-- C8 counterexample: a sheet whose first row is `[" h "]` yields a table
whose headers are the TRIMMED first-row cells (`["h"]`), not the sheet's
first row itself. -/
theorem claim_C8_counterexample :
    ((parseExcel [("S", [[" h "], ["1"]])]).tables.headD dummyXTable).headers = ["h"]
    ∧ (["h"] : List String) ≠ [" h "] := by
  exact ⟨rfl, by decide⟩

/-- C8 (amended): every sheet with at least one data row contributes exactly
one table (at its sheet position) whose headers are the first row of the
blank-row-filtered grid with each cell string-trimmed, whose rows are the
remaining rows with entirely-empty rows dropped, capped at 1000 (the
untruncated count is recorded in `insights.rowCount`); and the `text`
content is the concatenation of each sheet's CSV-like rendering prefixed by
its sheet-name banner. -/
theorem claim_C8 (wb : List (String × List (List String))) :
    (∀ p nm grid, wb.get? p = some (nm, grid) → sheetDataRows grid ≠ [] →
       ∃ t ∈ (parseExcel wb).tables, t.name = nm ∧ t.headers = sheetHeaders grid
         ∧ t.rows = (sheetDataRows grid).take 1000
         ∧ t.insights.rowCount = (sheetDataRows grid).length
         ∧ t.insights.sheetIndex = p)
    ∧ (parseExcel wb).content
        = (wb.map (fun p => sheetText p.1 p.2)).foldr (fun a b => a ++ b) "" := by
  constructor
  · intro p nm grid h hd
    have := parseExcelAux_mem wb 0 p nm grid h hd
    simpa [parseExcel] using this
  · show (parseExcelAux 0 wb).1 = _
    exact parseExcelAux_content wb 0

/-- Witness for C8 on a one-sheet workbook with one data row. -/
theorem claim_C8_witness :
    ∃ t ∈ (parseExcel [("Sales", [["h1", "h2"], ["1", "2"]])]).tables,
      t.name = "Sales" ∧ t.headers = sheetHeaders [["h1", "h2"], ["1", "2"]]
      ∧ t.rows = (sheetDataRows [["h1", "h2"], ["1", "2"]]).take 1000
      ∧ t.insights.rowCount = (sheetDataRows [["h1", "h2"], ["1", "2"]]).length
      ∧ t.insights.sheetIndex = 0 :=
  (claim_C8 [("Sales", [["h1", "h2"], ["1", "2"]])]).1 0 "Sales"
    [["h1", "h2"], ["1", "2"]] rfl (by decide)
